import Mathlib

/-!
# Verification of the `meter` consulting-hours tracker

A shallow embedding of the interactive session core of the `meter`
repository (Rust): the SQLite-backed store (`src/db.rs`), the data model
(`src/models.rs`), the invoice aggregation (`src/invoice.rs`), and the
TUI application session state machine with its Pomodoro scheduler
(`src/tui/app.rs`).

Modelling conventions:

* Rust `String` is `List Char`; `i32`/`i64` are `Int` (overflow is noted
  where the source could wrap); `u32` counters are `Nat`.
* `chrono::DateTime<Utc>` instants are modelled as `Int` seconds since the
  epoch: every consumption of instants in the modelled code goes through
  `num_seconds`, whole-second RFC3339 round-trips, or minute-precision
  format strings, so sub-second precision is irrelevant to the embedded
  behaviour.  The `Local` time zone is modelled as a fixed offset `tzOff`
  in seconds from UTC (no DST transition is modelled; with a fixed
  offset, `Local.from_local_datetime(..).single()` always succeeds).
* `f64` money/hours arithmetic is modelled over `ℚ`.  All concrete
  quantities appearing in the claims (whole-hour durations, rate 100,
  tax rate 10) are computed exactly by `f64` as well, so the `ℚ` model
  agrees with the binary floating-point evaluation on them.
* SQLite operations never fail in the model (the code treats a failure as
  a no-op or a status message; the store is a local embedded file and the
  spec's claims all concern the success paths).  Row ids are assigned
  sequentially, modelling `AUTOINCREMENT`.
-/

namespace Meter

/-! ## String helpers (ASCII, as used by the Rust code) -/

/-- `needle` occurs at the start of `hay` (used to build substring
containment, modelling Rust `str::contains`). -/
def strLeads : List Char → List Char → Bool
  | [], _ => true
  | _ :: _, [] => false
  | a :: as, b :: bs => a = b && strLeads as bs

/-- Substring containment: models Rust `str::contains(pattern)` for
string patterns. -/
def subMatch (needle : List Char) : List Char → Bool
  | [] => strLeads needle []
  | h :: t => strLeads needle (h :: t) || subMatch needle t

/-- ASCII lower-casing of one character, as done character-wise by Rust
`str::to_lowercase` on ASCII input (the payment-terms matching only ever
compares against ASCII needles). -/
def asciiLower (c : Char) : Char :=
  if 'A' ≤ c ∧ c ≤ 'Z' then Char.ofNat (c.toNat + 32) else c

/-- Models Rust `str::to_lowercase` (restricted to its ASCII behaviour). -/
def strLower (s : List Char) : List Char := s.map asciiLower

/-- Value of a non-empty all-digit string, `none` otherwise.  Auxiliary
for `parseI32`. -/
def digitsVal (s : List Char) : Option Nat :=
  if s = [] then none
  else if s.all Char.isDigit then
    some (s.foldl (fun acc c => acc * 10 + (c.toNat - '0'.toNat)) 0)
  else none

/-- Models Rust `str::parse::<i32>()`: an optional sign followed by
digits, failing on empty input, stray characters, and i32 overflow. -/
def parseI32 (s : List Char) : Option Int :=
  match s with
  | '+' :: rest =>
    (digitsVal rest).bind fun n =>
      if n ≤ 2147483647 then some (n : Int) else none
  | '-' :: rest =>
    (digitsVal rest).bind fun n =>
      if n ≤ 2147483648 then some (-(n : Int)) else none
  | _ =>
    (digitsVal s).bind fun n =>
      if n ≤ 2147483647 then some (n : Int) else none

/-! ## Data model (`src/models.rs`) -/

/-- `models::Entry` — one work interval.  The Rust field `end` is called
`end_` here because `end` is a Lean keyword. -/
structure Entry where
  id : Int
  project : List Char
  description : List Char
  start : Int
  end_ : Option Int
  billed : Bool
deriving Repr, DecidableEq

/-- `models::Project`.  The `rate` is `Option<f64>` in the source,
modelled over `ℚ`. -/
structure Project where
  id : Int
  name : List Char
  rate : Option ℚ
  currency : Option (List Char)
deriving Repr, DecidableEq

/-- `models::PomodoroConfig`.  All four numeric fields are `i32`. -/
structure PomodoroConfig where
  enabled : Bool
  work_duration : Int
  short_break : Int
  long_break : Int
  cycles_before_long : Int
deriving Repr, DecidableEq

/-- `PomodoroConfig::default()`. -/
def PomodoroConfig.default : PomodoroConfig :=
  { enabled := false
    work_duration := 45
    short_break := 15
    long_break := 60
    cycles_before_long := 4 }

/-- Rust `i32 as u32` cast (two's-complement reinterpretation), as used in
`App::is_long_break_next`. -/
def u32OfI32 (n : Int) : Nat := (n % 4294967296).toNat

/-! ## The store (`src/db.rs`)

The `Db` structure models exactly the tables the embedded application
messages touch: the `entries` table, the `projects` table, and the
singleton `pomodoro_config` row.  `nextEntryId`/`nextProjectId` model the
`AUTOINCREMENT` rowid allocators. -/

structure Db where
  entries : List Entry
  nextEntryId : Int
  projects : List Project
  nextProjectId : Int
  pomodoro : PomodoroConfig
deriving Repr, DecidableEq

namespace Db

/-- `Db::insert` — `INSERT INTO entries ...`; the stored row gets the next
rowid regardless of `entry.id` (the id column is auto-assigned). -/
def insert (db : Db) (e : Entry) : Db :=
  { db with
    entries := db.entries ++ [{ e with id := db.nextEntryId }]
    nextEntryId := db.nextEntryId + 1 }

/-- Selection step for `ORDER BY start DESC LIMIT 1`: keep the row with
the later start. -/
def pickLaterStart (acc : Option Entry) (e : Entry) : Option Entry :=
  match acc with
  | none => some e
  | some a => if e.start > a.start then some e else some a

/-- `Db::get_active_entry` — `SELECT ... WHERE end IS NULL ORDER BY start
DESC LIMIT 1`: among rows with an absent end, one with maximal start (the
tie order is unspecified in SQLite; the model keeps the earliest such
row). -/
def get_active_entry (db : Db) : Option Entry :=
  (db.entries.filter fun e => e.end_ = none).foldl pickLaterStart none

/-- `Db::start_timer` — inserts a fresh running entry (start = now, end
absent, billed false) and re-reads the active entry.  The source returns
`Result<Entry>`; in the model the operation always succeeds. -/
def start_timer (db : Db) (now : Int) (project description : List Char) : Db × Option Entry :=
  let db' := db.insert
    { id := 0, project := project, description := description
      start := now, end_ := none, billed := false }
  (db', db'.get_active_entry)

/-- `Db::stop_active_timer` — if an active entry exists, `UPDATE entries
SET end = now WHERE id = ?` on its id; returns the updated row. -/
def stop_active_timer (db : Db) (now : Int) : Db × Option Entry :=
  match db.get_active_entry with
  | none => (db, none)
  | some e =>
    let entries' := db.entries.map fun x =>
      if x.id = e.id then { x with end_ := some now } else x
    ({ db with entries := entries' }, some { e with end_ := some now })

/-- Insertion step for `ORDER BY start DESC` (SQLite's tie order is
unspecified; the model keeps earlier rows first among equal starts). -/
def insertByStartDesc (e : Entry) : List Entry → List Entry
  | [] => [e]
  | x :: xs => if e.start > x.start then e :: x :: xs else x :: insertByStartDesc e xs

/-- Sort entries by start descending, modelling `ORDER BY start DESC`. -/
def sortByStartDesc (l : List Entry) : List Entry :=
  l.foldr insertByStartDesc []

/-- `Db::list` — all entries ordered by start descending, then filtered
on the Rust side by the optional billed flag. -/
def list (db : Db) (billed : Option Bool) : List Entry :=
  (sortByStartDesc db.entries).filter fun e =>
    match billed with
    | none => true
    | some b => e.billed = b

/-- `Db::delete` — `DELETE FROM entries WHERE id = ?`; true iff a row was
removed. -/
def delete (db : Db) (id : Int) : Db × Bool :=
  (({ db with entries := db.entries.filter fun e => ¬ e.id = id }),
   db.entries.any fun e => e.id = id)

/-- `Db::update_entry` — overwrite every column of the row with the given
entry's id; true iff a row matched. -/
def update_entry (db : Db) (e : Entry) : Db × Bool :=
  (({ db with entries := db.entries.map fun x => if x.id = e.id then e else x }),
   db.entries.any fun x => x.id = e.id)

/-- `Db::mark_billed` — `UPDATE entries SET billed = 1 WHERE id = ?`. -/
def mark_billed (db : Db) (id : Int) : Db × Bool :=
  (({ db with entries := db.entries.map fun x =>
        if x.id = id then { x with billed := true } else x }),
   db.entries.any fun x => x.id = id)

/-- `Db::unmark_billed` — `UPDATE entries SET billed = 0 WHERE id = ?`. -/
def unmark_billed (db : Db) (id : Int) : Db × Bool :=
  (({ db with entries := db.entries.map fun x =>
        if x.id = id then { x with billed := false } else x }),
   db.entries.any fun x => x.id = id)

/-- `Db::list_projects` — the projects table (the source orders rows by
name; no embedded behaviour depends on that order, so the model keeps
table order). -/
def list_projects (db : Db) : List Project := db.projects

/-- `Db::get_pomodoro_config` — read the singleton config row. -/
def get_pomodoro_config (db : Db) : PomodoroConfig := db.pomodoro

/-- `Db::set_pomodoro_config` — overwrite the singleton config row. -/
def set_pomodoro_config (db : Db) (cfg : PomodoroConfig) : Db :=
  { db with pomodoro := cfg }

/-- `Db::set_pomodoro_enabled` — update only the enabled column. -/
def set_pomodoro_enabled (db : Db) (b : Bool) : Db :=
  { db with pomodoro := { db.pomodoro with enabled := b } }

/-- Number of entries with an absent end timestamp ("active" entries). -/
def activeCount (db : Db) : Nat :=
  (db.entries.filter fun e => e.end_ = none).length

end Db

/-! ## Invoice aggregation (`src/invoice.rs`, `write_invoice`)

The computational core of `write_invoice` (lines 137–144 and 231–326 of
`src/invoice.rs`): grouping by project, per-project hour totals, the
subtotal over priced projects, tax and total.  `f64` is modelled over
`ℚ`.  The source iterates a `HashMap` grouping in unspecified order; the
model lists project groups in order of first occurrence — `ℚ` addition
is commutative and associative, so the subtotal is order-independent,
and the spec itself states that the grouping order is not guaranteed. -/

/-- `invoice::ProjectRate`. -/
structure ProjectRate where
  rate : ℚ
  currency : List Char
deriving Repr, DecidableEq

/-- `params.project_rates.get(project)` — the rate table is a `HashMap`
keyed by project name (names are unique in the projects table). -/
def lookupRate (rates : List (List Char × ProjectRate)) (p : List Char) :
    Option ProjectRate :=
  (rates.find? fun q => q.1 = p).map (·.2)

/-- The distinct project names of an entry list, in order of first
occurrence (the key set of `entries_by_project`). -/
def projectNames (entries : List Entry) : List (List Char) :=
  entries.foldl
    (fun acc e => if e.project ∈ acc then acc else acc ++ [e.project]) []

/-- `project_total` for one project: the sum over its entries that
have an end timestamp of `(end - start).num_seconds() as f64 / 3600.0`;
entries without an end are skipped. -/
def projectTotal (entries : List Entry) (p : List Char) : ℚ :=
  ((entries.filter fun e => e.project = p).filterMap fun e =>
    e.end_.map fun t => (((t - e.start : Int) : ℚ) / 3600)).sum

/-- The invoice `subtotal`: over each project group, if the rate table
has a rate for the project, add `project_total * rate`; projects with no
rate contribute nothing. -/
def invoiceSubtotal (entries : List Entry)
    (rates : List (List Char × ProjectRate)) : ℚ :=
  ((projectNames entries).filterMap fun p =>
    (lookupRate rates p).map fun r => projectTotal entries p * r.rate).sum

/-- `tax_amount = subtotal * (params.tax_rate / 100.0)`. -/
def taxAmount (subtotal tax_rate : ℚ) : ℚ := subtotal * (tax_rate / 100)

/-- `total = subtotal + tax_amount`. -/
def invoiceTotal (subtotal tax_rate : ℚ) : ℚ :=
  subtotal + taxAmount subtotal tax_rate

/-! ## Due date (`src/invoice.rs`, `calculate_due_date`)

Calendar dates are modelled by their day number (days since an arbitrary
epoch); `checked_add_days(Days::new(n))` is day-number addition (its
overflow fallback is unreachable for realistic dates). -/

/-- The day offset derived from the payment-terms string:
case-insensitive substring match for "net 30" / "net 15" / "net 60", in
that order, else 0 (due on receipt). -/
def dueDateDays (payment_terms : List Char) : Nat :=
  if subMatch ("net 30".data) (strLower payment_terms) then 30
  else if subMatch ("net 15".data) (strLower payment_terms) then 15
  else if subMatch ("net 60".data) (strLower payment_terms) then 60
  else 0

/-- `calculate_due_date`: today plus the derived offset (the source
formats the result as `%Y-%m-%d`; the model returns the day number). -/
def calculate_due_date (today : Int) (payment_terms : List Char) : Int :=
  let days := dueDateDays payment_terms
  if days > 0 then today + days else today

/-! ## Local-time edit buffers (`%Y-%m-%d %H:%M` strings)

The entry-edit dialog formats the start/end instants with
`Local...format("%Y-%m-%d %H:%M")` and re-parses on save with
`NaiveDateTime::parse_from_str` and the same format, converting through
the `Local` zone (modelled as the fixed offset `tzOff`).  A string in
that exact format determines, and is determined by, the local wall-clock
minute count it denotes, so the model represents a time edit buffer by
its parse class: the empty string, a string parsing to `m` minutes, or a
string that fails to parse.  (Keystroke-level editing of these two
buffers is below this abstraction; edited buffer contents enter the
theorems through the quantified application state.) -/

inductive TimeInput where
  | empty
  | valid (minutes : Int)
  | invalid
deriving Repr, DecidableEq

/-- Formatting an instant `t` with `%Y-%m-%d %H:%M` in the local zone:
the resulting string denotes minute `(t + off).ediv 60` of local wall
time (`ediv` by the positive constant 60 is floor division). -/
def formatLocalHm (off t : Int) : TimeInput :=
  .valid ((t + off) / 60)

/-- Re-parsing a local minute count back to a UTC instant
(`Local.from_local_datetime(..).single()` followed by
`with_timezone(&Utc)`; with a fixed-offset zone `single()` always
succeeds). -/
def utcOfLocalMinutes (off m : Int) : Int := m * 60 - off

/-! ## Application session model (`src/tui/app.rs`) -/

/-- `app::Screen`. -/
inductive Screen where
  | Timer | Entries | Invoice | Projects | Pomodoro | Clients | Settings
deriving Repr, DecidableEq

/-- `app::RunningState`. -/
inductive RunningState where
  | Running | Done
deriving Repr, DecidableEq

/-- `app::InvoiceMode`. -/
inductive InvoiceMode where
  | CurrentMonth | PriorMonth | CustomRange | SelectEntries
deriving Repr, DecidableEq

/-- `app::InputMode` (the variants reachable through the embedded
messages). -/
inductive InputMode where
  | Normal
  | EditingProject
  | EditingDescription
  | EditEntryProject
  | EditEntryDescription
  | EditEntryStart
  | EditEntryEnd
  | EditingPomodoroWork
  | EditingPomodoroShortBreak
  | EditingPomodoroLongBreak
  | EditingPomodoroCycles
deriving Repr, DecidableEq

/-- `app::EditField`. -/
inductive EditField where
  | Project | Description | Start | End
deriving Repr, DecidableEq

/-- `app::PomodoroState`. -/
inductive PomodoroState where
  | Idle | Working | WorkComplete | OnBreak | BreakComplete
deriving Repr, DecidableEq

/-- `app::PomodoroField`. -/
inductive PomodoroField where
  | Enabled | WorkDuration | ShortBreak | LongBreak | Cycles
deriving Repr, DecidableEq

/-- The human-readable status strings the embedded handlers produce
(`self.status_message`); the `format!` payloads are carried as data. -/
inductive StatusMsg where
  | timerStarted
  | timerStopped
  | entryDeleted (id : Int)
  | entryUpdated (id : Int)
  | updateEntryFailed
  | entryBilled (id : Int)
  | entryUnbilled (id : Int)
  | workPeriodComplete
  | breakComplete
  | startingBreak (isLong : Bool) (mins : Int)
  | readyToResume
  | pomodoroEnabled
  | pomodoroDisabled
  | pomodoroSettingsSaved
deriving Repr, DecidableEq

/-- `app::App` — the fields of the session model touched by the embedded
message set (the remaining fields of the source struct are the input
buffers and selections of the client-editing, settings-editing,
project-rate-editing and invoice-generation flows, none of which is
read or written by any embedded handler). -/
structure App where
  running_state : RunningState
  current_screen : Screen
  active_entry : Option Entry
  project_input : List Char
  description_input : List Char
  input_mode : InputMode
  entries : List Entry
  selected_entry_index : Nat
  show_only_unbilled : Bool
  confirm_delete : Option Int
  editing_entry : Option Entry
  edit_field : EditField
  edit_project_input : List Char
  edit_description_input : List Char
  edit_start_input : TimeInput
  edit_end_input : TimeInput
  invoice_mode : InvoiceMode
  invoice_mode_index : Nat
  selected_entry_ids : List Int
  invoice_entries : List Entry
  invoice_select_index : Nat
  show_help : Bool
  status_message : Option StatusMsg
  projects : List Project
  project_rates : List (List Char × ProjectRate)
  pomodoro_config : PomodoroConfig
  pomodoro_state : PomodoroState
  pomodoro_cycles_completed : Nat
  pomodoro_interval_start : Option Int
  pomodoro_last_project : Option (List Char)
  pomodoro_last_description : Option (List Char)
  pomodoro_field : PomodoroField
  pomodoro_work_input : List Char
  pomodoro_short_break_input : List Char
  pomodoro_long_break_input : List Char
  pomodoro_cycles_input : List Char
deriving Repr, DecidableEq

/-- `App::default()` — `#[derive(Default)]` zero/empty/first-variant
values for every field. -/
def defaultApp : App :=
  { running_state := .Running
    current_screen := .Timer
    active_entry := none
    project_input := []
    description_input := []
    input_mode := .Normal
    entries := []
    selected_entry_index := 0
    show_only_unbilled := false
    confirm_delete := none
    editing_entry := none
    edit_field := .Project
    edit_project_input := []
    edit_description_input := []
    edit_start_input := .empty
    edit_end_input := .empty
    invoice_mode := .CurrentMonth
    invoice_mode_index := 0
    selected_entry_ids := []
    invoice_entries := []
    invoice_select_index := 0
    show_help := false
    status_message := none
    projects := []
    project_rates := []
    pomodoro_config := PomodoroConfig.default
    pomodoro_state := .Idle
    pomodoro_cycles_completed := 0
    pomodoro_interval_start := none
    pomodoro_last_project := none
    pomodoro_last_description := none
    pomodoro_field := .Enabled
    pomodoro_work_input := []
    pomodoro_short_break_input := []
    pomodoro_long_break_input := []
    pomodoro_cycles_input := [] }

/-- The messages of `app::Message` whose handlers touch the modelled
state: navigation, timer control, entry listing/deletion/billing, entry
editing, invoice-mode selection, ticks, data refresh, and the Pomodoro
messages.  Not embedded: `GenerateInvoice` (PDF rendering and month-range
selection), the project-rate, client-editing and settings-editing suites
(they read and write only their own buffers and tables), and the
per-keystroke `EditFieldInput`/`EditFieldBackspace` messages (time edit
buffers are modelled by parse class, see `TimeInput`). -/
inductive Message where
  | SwitchScreen (screen : Screen)
  | Quit
  | StartTimer
  | StopTimer
  | UpdateProjectInput (c : Char)
  | UpdateDescriptionInput (c : Char)
  | DeleteProjectChar
  | DeleteDescriptionChar
  | SelectNextEntry
  | SelectPreviousEntry
  | ToggleBilledFilter
  | DeleteEntry (id : Int)
  | ConfirmDelete
  | CancelDelete
  | MarkEntryBilled (id : Int)
  | UnbillEntry (id : Int)
  | EditEntry (id : Int)
  | EditNextField
  | EditPrevField
  | SaveEditEntry
  | CancelEditEntry
  | NextInvoiceMode
  | PrevInvoiceMode
  | SelectInvoiceMode
  | ToggleEntrySelection (id : Int)
  | NextInvoiceEntry
  | PrevInvoiceEntry
  | EnterInputMode (mode : InputMode)
  | ExitInputMode
  | ToggleHelp
  | ClearStatus
  | Tick
  | RefreshEntries
  | RefreshActiveTimer
  | TogglePomodoroMode
  | AcknowledgePomodoro
  | RefreshPomodoroConfig
  | PomodoroNextField
  | PomodoroPrevField
  | PomodoroFieldInput (c : Char)
  | PomodoroFieldBackspace
  | SavePomodoroConfig
  | CancelPomodoroEdit
deriving Repr, DecidableEq

/-- The environment a dispatch runs in: the wall clock (`Utc::now()`, in
seconds) and the fixed offset of the `Local` zone. -/
structure Env where
  now : Int
  tzOff : Int
deriving Repr, DecidableEq

/-- The notification side channel (`notification::notify_work_complete`
and `notify_break_complete`, fire-and-forget). -/
inductive Notif where
  | workComplete
  | breakComplete
deriving Repr, DecidableEq

/-- Result of one `App::update` call: the new session state, the new
store state, the notifications fired, and the optional follow-up message
returned to the caller. -/
structure StepResult where
  app : App
  db : Db
  notifs : List Notif
  next : Option Message
deriving Repr, DecidableEq

/-- `App::refresh_entries`. -/
def App.refresh_entries (a : App) (db : Db) : App :=
  let filter := if a.show_only_unbilled then some false else none
  let entries := db.list filter
  let idx :=
    if a.selected_entry_index ≥ entries.length ∧ ¬ entries = [] then
      entries.length - 1
    else a.selected_entry_index
  { a with entries := entries, selected_entry_index := idx }

/-- `App::refresh_active_timer`. -/
def App.refresh_active_timer (a : App) (db : Db) : App :=
  { a with active_entry := db.get_active_entry }

/-- The rate table built in `App::refresh_invoice_entries`: every project
with a set rate is inserted, with its currency defaulted to "$". -/
def buildProjectRates (projects : List Project) : List (List Char × ProjectRate) :=
  projects.foldl
    (fun acc p =>
      match p.rate with
      | some r => acc ++ [(p.name, ⟨r, p.currency.getD ("$".data)⟩)]
      | none => acc)
    []

/-- `App::refresh_invoice_entries`. -/
def App.refresh_invoice_entries (a : App) (db : Db) : App :=
  { a with
    invoice_entries := db.list (some true)
    project_rates := buildProjectRates db.list_projects }

/-- `App::load_pomodoro_inputs` (`i32::to_string` agrees with `Int`
rendering on the i32 range). -/
def App.load_pomodoro_inputs (a : App) : App :=
  { a with
    pomodoro_work_input := (toString a.pomodoro_config.work_duration).data
    pomodoro_short_break_input := (toString a.pomodoro_config.short_break).data
    pomodoro_long_break_input := (toString a.pomodoro_config.long_break).data
    pomodoro_cycles_input := (toString a.pomodoro_config.cycles_before_long).data }

/-- `App::is_long_break_next`:
`(cycles_completed + 1) >= cycles_before_long as u32`. -/
def App.is_long_break_next (a : App) : Bool :=
  a.pomodoro_cycles_completed + 1 ≥ u32OfI32 a.pomodoro_config.cycles_before_long

/-- `App::get_current_break_duration` (minutes). -/
def App.get_current_break_duration (a : App) : Int :=
  if a.is_long_break_next then a.pomodoro_config.long_break
  else a.pomodoro_config.short_break

/-- `App::new`: default state, the "Work session" description, the
initial refreshes, and the Working-state recovery when a timer is
already active while Pomodoro is enabled.  (`refresh_clients` and
`refresh_invoice_settings` touch only unmodelled fields.) -/
def appNew (db : Db) : App :=
  let a := { defaultApp with description_input := "Work session".data }
  let a := a.refresh_entries db
  let a := a.refresh_active_timer db
  let a := { a with pomodoro_config := db.get_pomodoro_config }
  if a.active_entry.isSome ∧ a.pomodoro_config.enabled then
    { a with
      pomodoro_state := .Working
      pomodoro_interval_start := a.active_entry.map (·.start) }
  else a

/-- The entry written by the `SaveEditEntry` handler: project and
description come from the buffers; the start instant is replaced when the
start buffer parses (otherwise kept); the end instant is cleared when the
end buffer is empty, replaced when it parses, and kept when parsing
fails. -/
def savedEntry (off : Int) (a : App) (e : Entry) : Entry :=
  let start :=
    match a.edit_start_input with
    | .valid m => utcOfLocalMinutes off m
    | _ => e.start
  let end_ :=
    match a.edit_end_input with
    | .empty => none
    | .valid m => some (utcOfLocalMinutes off m)
    | .invalid => e.end_
  { e with
    project := a.edit_project_input
    description := a.edit_description_input
    start := start
    end_ := end_ }

/-- The `edit_field → input_mode` mapping repeated in the
`EditNextField`/`EditPrevField` handlers. -/
def editFieldMode : EditField → InputMode
  | .Project => .EditEntryProject
  | .Description => .EditEntryDescription
  | .Start => .EditEntryStart
  | .End => .EditEntryEnd

/-- The `pomodoro_field → input_mode` mapping repeated in the
`PomodoroNextField`/`PomodoroPrevField` handlers. -/
def pomodoroFieldMode : PomodoroField → InputMode
  | .Enabled => .Normal
  | .WorkDuration => .EditingPomodoroWork
  | .ShortBreak => .EditingPomodoroShortBreak
  | .LongBreak => .EditingPomodoroLongBreak
  | .Cycles => .EditingPomodoroCycles

/-- `App::update` — the message-driven transition function.  Store calls
never fail in the model, so every `is_ok()` test in the source is taken on
its success branch (note that `Db::delete`, `Db::update_entry` and the
billing updates return `Ok` even when no row matched, so those handlers
set their status message and chain a refresh regardless). -/
def update (env : Env) (a : App) (db : Db) : Message → StepResult
  | .SwitchScreen screen =>
    let a := { a with current_screen := screen, input_mode := .Normal, confirm_delete := none }
    let a := if screen = .Invoice then a.refresh_invoice_entries db else a
    let a := if screen = .Projects then { a with projects := db.list_projects } else a
    let a :=
      if screen = .Pomodoro then
        App.load_pomodoro_inputs { a with pomodoro_config := db.get_pomodoro_config }
      else a
    ⟨a, db, [], none⟩
  | .Quit => ⟨{ a with running_state := .Done }, db, [], none⟩
  | .StartTimer =>
    if ¬ a.project_input = [] ∧ a.active_entry = none then
      let db' := (db.start_timer env.now a.project_input a.description_input).1
      let a := { a with
        pomodoro_last_project := some a.project_input
        pomodoro_last_description := some a.description_input
        project_input := []
        description_input := "Work session".data
        status_message := some .timerStarted
        input_mode := .Normal }
      let a :=
        if a.pomodoro_config.enabled then
          { a with pomodoro_state := .Working, pomodoro_interval_start := some env.now }
        else a
      ⟨a, db', [], some .RefreshActiveTimer⟩
    else ⟨a, db, [], none⟩
  | .StopTimer =>
    if a.active_entry.isSome then
      let db' := (db.stop_active_timer env.now).1
      ⟨{ a with
          active_entry := none
          status_message := some .timerStopped
          pomodoro_state := .Idle
          pomodoro_interval_start := none
          pomodoro_cycles_completed := 0 }, db', [], some .RefreshEntries⟩
    else ⟨a, db, [], none⟩
  | .UpdateProjectInput c =>
    ⟨{ a with project_input := a.project_input ++ [c] }, db, [], none⟩
  | .UpdateDescriptionInput c =>
    ⟨{ a with description_input := a.description_input ++ [c] }, db, [], none⟩
  | .DeleteProjectChar =>
    ⟨{ a with project_input := a.project_input.dropLast }, db, [], none⟩
  | .DeleteDescriptionChar =>
    ⟨{ a with description_input := a.description_input.dropLast }, db, [], none⟩
  | .SelectNextEntry =>
    if ¬ a.entries = [] then
      let idx := min (a.selected_entry_index + 1) (a.entries.length - 1)
      ⟨{ a with selected_entry_index := idx }, db, [], none⟩
    else ⟨a, db, [], none⟩
  | .SelectPreviousEntry =>
    ⟨{ a with selected_entry_index := a.selected_entry_index - 1 }, db, [], none⟩
  | .ToggleBilledFilter =>
    ⟨{ a with show_only_unbilled := !a.show_only_unbilled, selected_entry_index := 0 },
      db, [], some .RefreshEntries⟩
  | .DeleteEntry id => ⟨{ a with confirm_delete := some id }, db, [], none⟩
  | .ConfirmDelete =>
    match a.confirm_delete with
    | some id =>
      let a := { a with confirm_delete := none }
      let db' := (db.delete id).1
      let a := { a with status_message := some (.entryDeleted id) }
      let a :=
        if a.selected_entry_index > 0 then
          { a with selected_entry_index := a.selected_entry_index - 1 }
        else a
      ⟨a, db', [], some .RefreshEntries⟩
    | none => ⟨a, db, [], none⟩
  | .CancelDelete => ⟨{ a with confirm_delete := none }, db, [], none⟩
  | .MarkEntryBilled id =>
    let db' := (db.mark_billed id).1
    ⟨{ a with status_message := some (.entryBilled id) }, db', [], some .RefreshEntries⟩
  | .UnbillEntry id =>
    let db' := (db.unmark_billed id).1
    ⟨{ a with status_message := some (.entryUnbilled id) }, db', [], some .RefreshEntries⟩
  | .EditEntry id =>
    match a.entries.find? (fun e => e.id = id) with
    | some e =>
      ⟨{ a with
          editing_entry := some e
          edit_field := .Project
          edit_project_input := e.project
          edit_description_input := e.description
          edit_start_input := formatLocalHm env.tzOff e.start
          edit_end_input :=
            match e.end_ with
            | some t => formatLocalHm env.tzOff t
            | none => .empty
          input_mode := .EditEntryProject }, db, [], none⟩
    | none => ⟨a, db, [], none⟩
  | .EditNextField =>
    let f :=
      match a.edit_field with
      | .Project => EditField.Description
      | .Description => .Start
      | .Start => .End
      | .End => .Project
    ⟨{ a with edit_field := f, input_mode := editFieldMode f }, db, [], none⟩
  | .EditPrevField =>
    let f :=
      match a.edit_field with
      | .Project => EditField.End
      | .Description => .Project
      | .Start => .Description
      | .End => .Start
    ⟨{ a with edit_field := f, input_mode := editFieldMode f }, db, [], none⟩
  | .SaveEditEntry =>
    match a.editing_entry with
    | some e =>
      let a := { a with editing_entry := none }
      let entry := savedEntry env.tzOff a e
      let db' := (db.update_entry entry).1
      ⟨{ a with
          status_message := some (.entryUpdated entry.id)
          input_mode := .Normal
          edit_field := .Project }, db', [], some .RefreshEntries⟩
    | none =>
      ⟨{ a with input_mode := .Normal, edit_field := .Project }, db, [], some .RefreshEntries⟩
  | .CancelEditEntry =>
    ⟨{ a with editing_entry := none, input_mode := .Normal, edit_field := .Project },
      db, [], none⟩
  | .NextInvoiceMode =>
    if ¬ a.invoice_mode = .SelectEntries then
      let idx := (a.invoice_mode_index + 1) % 4
      let m :=
        match idx with
        | 0 => InvoiceMode.CurrentMonth
        | 1 => .PriorMonth
        | 2 => .CustomRange
        | _ => .SelectEntries
      ⟨{ a with invoice_mode_index := idx, invoice_mode := m }, db, [], none⟩
    else if ¬ a.invoice_entries = [] then
      let idx := min (a.invoice_select_index + 1) (a.invoice_entries.length - 1)
      ⟨{ a with invoice_select_index := idx }, db, [], none⟩
    else ⟨a, db, [], none⟩
  | .PrevInvoiceMode =>
    if ¬ a.invoice_mode = .SelectEntries then
      let idx := if a.invoice_mode_index = 0 then 3 else a.invoice_mode_index - 1
      let m :=
        match idx with
        | 0 => InvoiceMode.CurrentMonth
        | 1 => .PriorMonth
        | 2 => .CustomRange
        | _ => .SelectEntries
      ⟨{ a with invoice_mode_index := idx, invoice_mode := m }, db, [], none⟩
    else
      ⟨{ a with invoice_select_index := a.invoice_select_index - 1 }, db, [], none⟩
  | .SelectInvoiceMode =>
    if a.invoice_mode = .SelectEntries then ⟨a, db, [], none⟩
    else if a.invoice_mode_index = 3 then
      let a := { a with invoice_mode := .SelectEntries }
      ⟨a.refresh_invoice_entries db, db, [], none⟩
    else ⟨a, db, [], none⟩
  | .ToggleEntrySelection id =>
    if id ∈ a.selected_entry_ids then
      ⟨{ a with selected_entry_ids := a.selected_entry_ids.filter fun x => ¬ x = id },
        db, [], none⟩
    else
      ⟨{ a with selected_entry_ids := a.selected_entry_ids ++ [id] }, db, [], none⟩
  | .NextInvoiceEntry =>
    if ¬ a.invoice_entries = [] then
      let idx := min (a.invoice_select_index + 1) (a.invoice_entries.length - 1)
      ⟨{ a with invoice_select_index := idx }, db, [], none⟩
    else ⟨a, db, [], none⟩
  | .PrevInvoiceEntry =>
    ⟨{ a with invoice_select_index := a.invoice_select_index - 1 }, db, [], none⟩
  | .EnterInputMode mode => ⟨{ a with input_mode := mode }, db, [], none⟩
  | .ExitInputMode =>
    let a := { a with input_mode := .Normal }
    if a.invoice_mode = .SelectEntries then
      ⟨{ a with invoice_mode := .CurrentMonth, invoice_mode_index := 0 }, db, [], none⟩
    else ⟨a, db, [], none⟩
  | .ToggleHelp => ⟨{ a with show_help := !a.show_help }, db, [], none⟩
  | .ClearStatus => ⟨{ a with status_message := none }, db, [], none⟩
  | .Tick =>
    let a := a.refresh_active_timer db
    if a.pomodoro_config.enabled then
      match a.pomodoro_interval_start with
      | some interval_start =>
        let elapsed_secs := env.now - interval_start
        match a.pomodoro_state with
        | .Working =>
          let work_secs := a.pomodoro_config.work_duration * 60
          if elapsed_secs ≥ work_secs then
            let a :=
              match a.active_entry with
              | some entry =>
                { a with
                  pomodoro_last_project := some entry.project
                  pomodoro_last_description := some entry.description }
              | none => a
            let db' := (db.stop_active_timer env.now).1
            ⟨{ a with
                active_entry := none
                pomodoro_state := .WorkComplete
                pomodoro_interval_start := none
                status_message := some .workPeriodComplete }, db',
              [.workComplete], none⟩
          else ⟨a, db, [], none⟩
        | .OnBreak =>
          let break_secs := a.get_current_break_duration * 60
          if elapsed_secs ≥ break_secs then
            ⟨{ a with
                pomodoro_state := .BreakComplete
                pomodoro_interval_start := none
                status_message := some .breakComplete }, db,
              [.breakComplete], none⟩
          else ⟨a, db, [], none⟩
        | _ => ⟨a, db, [], none⟩
      | none => ⟨a, db, [], none⟩
    else ⟨a, db, [], none⟩
  | .RefreshEntries => ⟨a.refresh_entries db, db, [], none⟩
  | .RefreshActiveTimer => ⟨a.refresh_active_timer db, db, [], none⟩
  | .TogglePomodoroMode =>
    let enabled := !a.pomodoro_config.enabled
    let a := { a with pomodoro_config := { a.pomodoro_config with enabled := enabled } }
    let db := db.set_pomodoro_enabled enabled
    if enabled then
      let a := { a with status_message := some .pomodoroEnabled }
      if a.active_entry.isSome then
        ⟨{ a with pomodoro_state := .Working, pomodoro_interval_start := some env.now },
          db, [], none⟩
      else ⟨a, db, [], none⟩
    else
      ⟨{ a with
          status_message := some .pomodoroDisabled
          pomodoro_state := .Idle
          pomodoro_interval_start := none
          pomodoro_cycles_completed := 0 }, db, [], none⟩
  | .AcknowledgePomodoro =>
    match a.pomodoro_state with
    | .WorkComplete =>
      let a := { a with pomodoro_state := .OnBreak, pomodoro_interval_start := some env.now }
      let status := StatusMsg.startingBreak a.is_long_break_next a.get_current_break_duration
      ⟨{ a with status_message := some status }, db, [], none⟩
    | .BreakComplete =>
      let c := a.pomodoro_cycles_completed + 1
      let c := if c ≥ u32OfI32 a.pomodoro_config.cycles_before_long then 0 else c
      let a := { a with
        pomodoro_cycles_completed := c
        pomodoro_state := .Idle
        pomodoro_interval_start := none }
      let a :=
        match a.pomodoro_last_project with
        | some proj => { a with project_input := proj }
        | none => a
      let a :=
        match a.pomodoro_last_description with
        | some desc => { a with description_input := desc }
        | none => a
      ⟨{ a with status_message := some .readyToResume }, db, [], none⟩
    | _ => ⟨a, db, [], none⟩
  | .RefreshPomodoroConfig =>
    ⟨{ a with pomodoro_config := db.get_pomodoro_config }, db, [], none⟩
  | .PomodoroNextField =>
    let f :=
      match a.pomodoro_field with
      | .Enabled => PomodoroField.WorkDuration
      | .WorkDuration => .ShortBreak
      | .ShortBreak => .LongBreak
      | .LongBreak => .Cycles
      | .Cycles => .Enabled
    ⟨{ a with pomodoro_field := f, input_mode := pomodoroFieldMode f }, db, [], none⟩
  | .PomodoroPrevField =>
    let f :=
      match a.pomodoro_field with
      | .Enabled => PomodoroField.Cycles
      | .WorkDuration => .Enabled
      | .ShortBreak => .WorkDuration
      | .LongBreak => .ShortBreak
      | .Cycles => .LongBreak
    ⟨{ a with pomodoro_field := f, input_mode := pomodoroFieldMode f }, db, [], none⟩
  | .PomodoroFieldInput c =>
    if c.isDigit then
      match a.pomodoro_field with
      | .WorkDuration =>
        ⟨{ a with pomodoro_work_input := a.pomodoro_work_input ++ [c] }, db, [], none⟩
      | .ShortBreak =>
        ⟨{ a with pomodoro_short_break_input := a.pomodoro_short_break_input ++ [c] },
          db, [], none⟩
      | .LongBreak =>
        ⟨{ a with pomodoro_long_break_input := a.pomodoro_long_break_input ++ [c] },
          db, [], none⟩
      | .Cycles =>
        ⟨{ a with pomodoro_cycles_input := a.pomodoro_cycles_input ++ [c] }, db, [], none⟩
      | _ => ⟨a, db, [], none⟩
    else ⟨a, db, [], none⟩
  | .PomodoroFieldBackspace =>
    match a.pomodoro_field with
    | .WorkDuration =>
      ⟨{ a with pomodoro_work_input := a.pomodoro_work_input.dropLast }, db, [], none⟩
    | .ShortBreak =>
      ⟨{ a with pomodoro_short_break_input := a.pomodoro_short_break_input.dropLast },
        db, [], none⟩
    | .LongBreak =>
      ⟨{ a with pomodoro_long_break_input := a.pomodoro_long_break_input.dropLast },
        db, [], none⟩
    | .Cycles =>
      ⟨{ a with pomodoro_cycles_input := a.pomodoro_cycles_input.dropLast }, db, [], none⟩
    | _ => ⟨a, db, [], none⟩
  | .SavePomodoroConfig =>
    let cfg := a.pomodoro_config
    let cfg :=
      match parseI32 a.pomodoro_work_input with
      | some w => if w > 0 then { cfg with work_duration := w } else cfg
      | none => cfg
    let cfg :=
      match parseI32 a.pomodoro_short_break_input with
      | some s => if s > 0 then { cfg with short_break := s } else cfg
      | none => cfg
    let cfg :=
      match parseI32 a.pomodoro_long_break_input with
      | some l => if l > 0 then { cfg with long_break := l } else cfg
      | none => cfg
    let cfg :=
      match parseI32 a.pomodoro_cycles_input with
      | some n => if n > 0 then { cfg with cycles_before_long := n } else cfg
      | none => cfg
    let a := { a with pomodoro_config := cfg }
    let db := db.set_pomodoro_config cfg
    ⟨{ a with
        status_message := some .pomodoroSettingsSaved
        input_mode := .Normal
        pomodoro_field := .Enabled }, db, [], none⟩
  | .CancelPomodoroEdit =>
    ⟨{ a.load_pomodoro_inputs with input_mode := .Normal, pomodoro_field := .Enabled },
      db, [], none⟩

/-- One dispatched message pumped to a fixed point: every follow-up an
embedded handler returns is `RefreshEntries` or `RefreshActiveTimer`,
whose handlers return no further follow-up, so the chain has length at
most two. -/
def dispatch (env : Env) (a : App) (db : Db) (msg : Message) :
    App × Db × List Notif :=
  let r := update env a db msg
  match r.next with
  | none => (r.app, r.db, r.notifs)
  | some m2 =>
    let r2 := update env r.app r.db m2
    (r2.app, r2.db, r.notifs ++ r2.notifs)

/-- Run a sequence of dispatched messages, each with its environment
(tick time). -/
def runSystem : List (Env × Message) → App × Db → App × Db
  | [], s => s
  | step :: rest, s =>
    let r := dispatch step.1 s.1 s.2 step.2
    runSystem rest (r.1, r.2.1)

/-! ## Derived definitions and predicates used by the theorems -/

/-- A session state whose Pomodoro-relevant fields are the given config
and cycle counter (the break-length rule reads nothing else). -/
def pomApp (cfg : PomodoroConfig) (c : Nat) : App :=
  { defaultApp with pomodoro_config := cfg, pomodoro_cycles_completed := c }

/-- The cycle-counter step performed by the `BreakComplete` branch of the
`AcknowledgePomodoro` handler: increment, wrapping to 0 on reaching
`cycles_before_long as u32`. -/
def ackCycleStep (cfg : PomodoroConfig) (c : Nat) : Nat :=
  if c + 1 ≥ u32OfI32 cfg.cycles_before_long then 0 else c + 1

/-- The cycle counter after `m` break acknowledgments, starting from 0. -/
def cyclesAfterAcks (cfg : PomodoroConfig) : Nat → Nat
  | 0 => 0
  | m + 1 => ackCycleStep cfg (cyclesAfterAcks cfg m)

/-- The interval-start/state coupling: an interval start is recorded
exactly in the running states `Working` and `OnBreak`. -/
def pomIntervalOk (a : App) : Prop :=
  a.pomodoro_interval_start.isSome = true ↔
    (a.pomodoro_state = .Working ∨ a.pomodoro_state = .OnBreak)

/-- Inductive invariant for the timer messages: the store holds at most
one active entry, and whenever the session's mirror knows no active
entry the store has none. -/
def storeTimerInv (s : App × Db) : Prop :=
  s.2.activeCount ≤ 1 ∧ (s.1.active_entry = none → s.2.activeCount = 0)

/-- The timer-control messages: `StartTimer`/`StopTimer` together with
the keystroke messages that edit the project/description buffers (the
operator refills the buffer between starts, which is how `StartTimer`'s
non-empty-buffer precondition is met again after a start clears it). -/
def isTimerScope : Message → Bool
  | .StartTimer | .StopTimer
  | .UpdateProjectInput _ | .UpdateDescriptionInput _
  | .DeleteProjectChar | .DeleteDescriptionChar => true
  | _ => false

/-- A session state ready to start a timer: project buffer holds
"Acme", no active entry known. -/
def appStartReady : App := { defaultApp with project_input := "Acme".data }

/-- Start a timer, type a new project name, stop, and start again: both
starts observe their preconditions and genuinely insert an entry. -/
def timerDemoSteps : List (Env × Message) :=
  [(⟨5, 0⟩, .StartTimer), (⟨7, 0⟩, .UpdateProjectInput 'B'),
   (⟨10, 0⟩, .StopTimer), (⟨20, 0⟩, .StartTimer)]

/-! Concrete fixtures for witnesses and counterexamples. -/

/-- A freshly initialised store. -/
def emptyDb : Db :=
  { entries := [], nextEntryId := 1, projects := [], nextProjectId := 1
    pomodoro := PomodoroConfig.default }

/-- Environment at the epoch, UTC local zone. -/
def env0 : Env := ⟨0, 0⟩

/-- The invoice-aggregation example of the spec: ProjA 2 h, ProjA 1 h,
ProjB 3 h, all billed and ended. -/
def exampleEntryA1 : Entry :=
  ⟨1, "ProjA".data, "Design".data, 0, some 7200, true⟩

def exampleEntryA2 : Entry :=
  ⟨2, "ProjA".data, "Review".data, 10000, some 13600, true⟩

def exampleEntryB : Entry :=
  ⟨3, "ProjB".data, "Audit".data, 0, some 10800, true⟩

def exampleEntries : List Entry := [exampleEntryA1, exampleEntryA2, exampleEntryB]

/-- Rate table: ProjA at 100, ProjB without a rate. -/
def exampleRates : List (List Char × ProjectRate) :=
  [(exampleEntryA1.project, ⟨100, "$".data⟩)]

/-- A store holding one running entry ("Acme"/"Design" started at the
epoch) with Pomodoro enabled. -/
def acmeEntry : Entry := ⟨1, "Acme".data, "Design".data, 0, none, false⟩

def dbAcmeRunning : Db :=
  { entries := [acmeEntry], nextEntryId := 2, projects := [], nextProjectId := 1
    pomodoro := { PomodoroConfig.default with enabled := true } }

def appAcme : App := appNew dbAcmeRunning

/-- Wall clock 45 minutes after the epoch. -/
def envT45 : Env := ⟨2700, 0⟩

/-- A completed entry whose start (90 s) and end (3630 s) do not fall on
whole minutes. -/
def oddSecondsEntry : Entry := ⟨1, "Acme".data, "Design".data, 90, some 3630, false⟩

def dbOddSeconds : Db :=
  { entries := [oddSecondsEntry], nextEntryId := 2, projects := [], nextProjectId := 1
    pomodoro := PomodoroConfig.default }

def appOddSeconds : App := appNew dbOddSeconds

/-- A completed entry on whole minutes. -/
def alignedEntry : Entry := ⟨1, "Acme".data, "Design".data, 120, some 3600, false⟩

def dbAligned : Db :=
  { entries := [alignedEntry], nextEntryId := 2, projects := [], nextProjectId := 1
    pomodoro := PomodoroConfig.default }

def appAligned : App := appNew dbAligned

/-- A completed entry being edited. -/
def endedEntry : Entry := ⟨1, "Acme".data, "Design".data, 0, some 3600, false⟩

def dbEnded : Db :=
  { entries := [endedEntry], nextEntryId := 2, projects := [], nextProjectId := 1
    pomodoro := PomodoroConfig.default }

/-- Edit dialog open on `endedEntry` with the end buffer cleared and an
unparseable start buffer. -/
def appEmptyEndBuf : App :=
  { defaultApp with
    editing_entry := some endedEntry
    edit_project_input := endedEntry.project
    edit_description_input := endedEntry.description
    edit_start_input := .invalid
    edit_end_input := .empty }

/-- Edit dialog open on `endedEntry` with both time buffers unparseable. -/
def appInvalidBufs : App :=
  { defaultApp with
    editing_entry := some endedEntry
    edit_project_input := endedEntry.project
    edit_description_input := endedEntry.description
    edit_start_input := .invalid
    edit_end_input := .invalid }

/-! ## Theorems -/

/-- C8: the invoice due date equals the issue date plus 30 days when the
payment-terms string contains "net 30" as a case-insensitive substring,
plus 15 for "net 15", plus 60 for "net 60" (tested in that order), and
plus 0 days otherwise; in particular "Net 30" issued on day `today`
yields `today + 30` and "Due on receipt" yields `today`. -/
theorem C8_due_date :
    (∀ today terms, calculate_due_date today terms = today + dueDateDays terms) ∧
    (∀ terms, subMatch ("net 30".data) (strLower terms) = true →
      dueDateDays terms = 30) ∧
    (∀ terms, subMatch ("net 30".data) (strLower terms) = false →
      subMatch ("net 15".data) (strLower terms) = true →
      dueDateDays terms = 15) ∧
    (∀ terms, subMatch ("net 30".data) (strLower terms) = false →
      subMatch ("net 15".data) (strLower terms) = false →
      subMatch ("net 60".data) (strLower terms) = true →
      dueDateDays terms = 60) ∧
    (∀ terms, subMatch ("net 30".data) (strLower terms) = false →
      subMatch ("net 15".data) (strLower terms) = false →
      subMatch ("net 60".data) (strLower terms) = false →
      dueDateDays terms = 0) ∧
    (∀ today, calculate_due_date today ("Net 30".data) = today + 30) ∧
    (∀ today, calculate_due_date today ("Due on receipt".data) = today) := by
  have h30 : dueDateDays ("Net 30".data) = 30 := by decide
  have h0 : dueDateDays ("Due on receipt".data) = 0 := by decide
  refine ⟨?_, ?_, ?_, ?_, ?_, ?_, ?_⟩
  · intro today terms
    by_cases h : dueDateDays terms > 0
    · simp [calculate_due_date, h]
    · simp [calculate_due_date, h]
      omega
  · intro terms h
    simp [dueDateDays, h]
  · intro terms h1 h2
    simp [dueDateDays, h1, h2]
  · intro terms h1 h2 h3
    simp [dueDateDays, h1, h2, h3]
  · intro terms h1 h2 h3
    simp [dueDateDays, h1, h2, h3]
  · intro today
    unfold calculate_due_date
    rw [h30]
    norm_num
  · intro today
    unfold calculate_due_date
    rw [h0]
    norm_num

/-- C8 witness: the match is case-insensitive substring containment
("NET 30 eom" contains "net 30" after lower-casing and is mapped to the
30-day offset). -/
theorem C8_due_date_witness :
    subMatch ("net 30".data) (strLower ("NET 30 eom".data)) = true ∧
    dueDateDays ("NET 30 eom".data) = 30 :=
  ⟨by decide, C8_due_date.2.1 ("NET 30 eom".data) (by decide)⟩

/-- C2: invoice aggregation — tax and total laws, per-project hours as
the sum of `(end - start)` seconds over 3600 with unended entries
excluded, and the concrete example: entries (ProjA 2 h, ProjA 1 h, ProjB
3 h), rate ProjA = 100, ProjB without a rate, tax rate 10 give subtotal
300, tax 30, total 330, with ProjB still present in the breakdown. -/
theorem C2_invoice_aggregation :
    (∀ s r : ℚ, taxAmount s r = s * (r / 100) ∧
      invoiceTotal s r = s + taxAmount s r) ∧
    (∀ (entries : List Entry) (p : List Char) (e : Entry), e.end_ = none →
      projectTotal (e :: entries) p = projectTotal entries p) ∧
    (∀ (entries : List Entry) (p : List Char) (e : Entry) (t : Int),
      e.end_ = some t → e.project = p →
      projectTotal (e :: entries) p
        = ((t - e.start : Int) : ℚ) / 3600 + projectTotal entries p) ∧
    projectTotal exampleEntries ("ProjA".data) = 3 ∧
    projectTotal exampleEntries ("ProjB".data) = 3 ∧
    invoiceSubtotal exampleEntries exampleRates = 300 ∧
    taxAmount 300 10 = 30 ∧
    invoiceTotal 300 10 = 330 ∧
    lookupRate exampleRates ("ProjB".data) = none ∧
    ("ProjB".data) ∈ projectNames exampleEntries := by
  refine ⟨?_, ?_, ?_, by with_unfolding_all decide, by with_unfolding_all decide,
    by with_unfolding_all decide, by norm_num [taxAmount],
    by norm_num [invoiceTotal, taxAmount], by decide, by decide⟩
  · intro s r
    exact ⟨rfl, rfl⟩
  · intro entries p e h
    by_cases hp : e.project = p <;>
      simp [projectTotal, hp, h, List.filter_cons, List.filterMap_cons]
  · intro entries p e t ht hp
    simp [projectTotal, hp, ht, List.filter_cons, List.filterMap_cons]

/-- C2 witness: a running entry (no end timestamp) contributes nothing
to its project's hours. -/
theorem C2_invoice_aggregation_witness :
    projectTotal [⟨9, "ProjA".data, "Open".data, 50, none, false⟩, exampleEntryA1]
        ("ProjA".data)
      = projectTotal [exampleEntryA1] ("ProjA".data) :=
  C2_invoice_aggregation.2.1 [exampleEntryA1] ("ProjA".data)
    ⟨9, "ProjA".data, "Open".data, 50, none, false⟩ rfl

/-- C9: processing `StartTimer` while the project-input buffer is empty,
or while an active entry is already known, is a complete no-op: the
session state and the store are returned unchanged, no notification is
fired, and no follow-up message is produced. -/
theorem C9_start_timer_noop (env : Env) (a : App) (db : Db)
    (h : a.project_input = [] ∨ a.active_entry.isSome = true) :
    update env a db .StartTimer = ⟨a, db, [], none⟩ := by
  have hcond : ¬ (¬ a.project_input = [] ∧ a.active_entry = none) := by
    rcases h with h | h
    · exact fun hc => hc.1 h
    · intro hc
      rw [hc.2] at h
      simp at h
  simp only [update, if_neg hcond]

/-- C9 witness: starting with an empty project buffer on a fresh session
changes nothing. -/
theorem C9_start_timer_noop_witness :
    update env0 defaultApp emptyDb .StartTimer = ⟨defaultApp, emptyDb, [], none⟩ :=
  C9_start_timer_noop env0 defaultApp emptyDb (Or.inl rfl)

/-- C5: turning Pomodoro mode off (via `TogglePomodoroMode` while it is
enabled) or stopping the timer while an active entry is known collapses
the Pomodoro machine to `Idle`, clears the interval start, and resets the
cycle counter to 0; toggling off leaves the stored entries (and the known
active entry) untouched. -/
theorem C5_collapse_to_idle :
    (∀ (env : Env) (a : App) (db : Db), a.pomodoro_config.enabled = true →
      (update env a db .TogglePomodoroMode).app.pomodoro_state = .Idle ∧
      (update env a db .TogglePomodoroMode).app.pomodoro_interval_start = none ∧
      (update env a db .TogglePomodoroMode).app.pomodoro_cycles_completed = 0 ∧
      (update env a db .TogglePomodoroMode).db.entries = db.entries ∧
      (update env a db .TogglePomodoroMode).app.active_entry = a.active_entry) ∧
    (∀ (env : Env) (a : App) (db : Db), a.active_entry.isSome = true →
      (update env a db .StopTimer).app.pomodoro_state = .Idle ∧
      (update env a db .StopTimer).app.pomodoro_interval_start = none ∧
      (update env a db .StopTimer).app.pomodoro_cycles_completed = 0) := by
  constructor
  · intro env a db h
    simp [update, h, Db.set_pomodoro_enabled]
  · intro env a db h
    simp [update, h]

/-- C5 witness: with Pomodoro enabled and the Acme timer running,
toggling Pomodoro off and (separately) stopping the timer both reset the
machine. -/
theorem C5_collapse_to_idle_witness :
    ((update envT45 appAcme dbAcmeRunning .TogglePomodoroMode).app.pomodoro_state = .Idle ∧
     (update envT45 appAcme dbAcmeRunning .TogglePomodoroMode).app.pomodoro_interval_start = none ∧
     (update envT45 appAcme dbAcmeRunning .TogglePomodoroMode).app.pomodoro_cycles_completed = 0 ∧
     (update envT45 appAcme dbAcmeRunning .TogglePomodoroMode).db.entries = dbAcmeRunning.entries ∧
     (update envT45 appAcme dbAcmeRunning .TogglePomodoroMode).app.active_entry = appAcme.active_entry) ∧
    ((update envT45 appAcme dbAcmeRunning .StopTimer).app.pomodoro_state = .Idle ∧
     (update envT45 appAcme dbAcmeRunning .StopTimer).app.pomodoro_interval_start = none ∧
     (update envT45 appAcme dbAcmeRunning .StopTimer).app.pomodoro_cycles_completed = 0) :=
  ⟨C5_collapse_to_idle.1 envT45 appAcme dbAcmeRunning (by decide),
   C5_collapse_to_idle.2 envT45 appAcme dbAcmeRunning (by decide)⟩

/-- C4: a `Tick` processed with Pomodoro enabled, state `Working`, a
recorded interval start `t0`, elapsed time at least `work_duration * 60`
seconds, and an active entry `e` in the store transitions to
`WorkComplete`, stops the active timer in the store with end = the tick
time, clears the active-entry mirror and the interval start, records
`e`'s project and description as the resume memory, and requests a
work-complete notification. -/
theorem C4_tick_work_complete (env : Env) (a : App) (db : Db) (e : Entry) (t0 : Int)
    (hen : a.pomodoro_config.enabled = true)
    (hst : a.pomodoro_state = .Working)
    (hiv : a.pomodoro_interval_start = some t0)
    (hel : env.now - t0 ≥ a.pomodoro_config.work_duration * 60)
    (hae : db.get_active_entry = some e) :
    (update env a db .Tick).app.pomodoro_state = .WorkComplete ∧
    (update env a db .Tick).app.active_entry = none ∧
    (update env a db .Tick).app.pomodoro_interval_start = none ∧
    (update env a db .Tick).app.pomodoro_last_project = some e.project ∧
    (update env a db .Tick).app.pomodoro_last_description = some e.description ∧
    (update env a db .Tick).app.status_message = some .workPeriodComplete ∧
    (update env a db .Tick).notifs = [.workComplete] ∧
    (update env a db .Tick).db.entries
      = db.entries.map
          (fun x => if x.id = e.id then { x with end_ := some env.now } else x) := by
  simp [update, App.refresh_active_timer, hen, hst, hiv, hae, hel,
    Db.stop_active_timer]

/-- C4 witness: `Start("Acme","Design")` at T0 = 0, Tick at T0 + 45 min
with `work_duration = 45` stops the entry with end = T0 + 45 min
(= 2700 s). -/
theorem C4_tick_work_complete_witness :
    (update envT45 appAcme dbAcmeRunning .Tick).app.pomodoro_state = .WorkComplete ∧
    (update envT45 appAcme dbAcmeRunning .Tick).app.active_entry = none ∧
    (update envT45 appAcme dbAcmeRunning .Tick).app.pomodoro_interval_start = none ∧
    (update envT45 appAcme dbAcmeRunning .Tick).app.pomodoro_last_project
      = some acmeEntry.project ∧
    (update envT45 appAcme dbAcmeRunning .Tick).app.pomodoro_last_description
      = some acmeEntry.description ∧
    (update envT45 appAcme dbAcmeRunning .Tick).app.status_message
      = some .workPeriodComplete ∧
    (update envT45 appAcme dbAcmeRunning .Tick).notifs = [.workComplete] ∧
    (update envT45 appAcme dbAcmeRunning .Tick).db.entries
      = dbAcmeRunning.entries.map
          (fun x => if x.id = acmeEntry.id then { x with end_ := some envT45.now } else x) :=
  C4_tick_work_complete envT45 appAcme dbAcmeRunning acmeEntry 0
    (by decide) (by decide) (by decide) (by decide) (by decide)

/-- The `i32 as u32` cast is the identity on the non-negative i32
range. -/
theorem u32OfI32_coe (N : Nat) (h : N ≤ 2147483647) : u32OfI32 (N : Int) = N := by
  unfold u32OfI32
  rw [Int.emod_eq_of_lt (by positivity) (by omega)]
  simp

/-- Successor modulo: `(m + 1) % N` in terms of `m % N`. -/
theorem succ_mod_eq (m N : Nat) (hN : 0 < N) :
    (m + 1) % N = if m % N + 1 = N then 0 else m % N + 1 := by
  have hlt : m % N < N := Nat.mod_lt _ hN
  rcases Nat.lt_or_ge 1 N with h1 | h1
  · have h1N : 1 % N = 1 := Nat.mod_eq_of_lt h1
    rw [Nat.add_mod, h1N]
    by_cases h : m % N + 1 = N
    · rw [h, if_pos rfl, Nat.mod_self]
    · rw [if_neg h, Nat.mod_eq_of_lt (by omega)]
  · have hN1 : N = 1 := by omega
    subst hN1
    simp [Nat.mod_one]

/-- Starting from 0, the cycle counter after `m` break acknowledgments is
`m % N` when `cycles_before_long` holds the positive i32 value `N`. -/
theorem cyclesAfterAcks_mod (cfg : PomodoroConfig) (N : Nat)
    (hcfg : cfg.cycles_before_long = (N : Int)) (h1 : 1 ≤ N)
    (hN : N ≤ 2147483647) : ∀ m, cyclesAfterAcks cfg m = m % N := by
  intro m
  induction m with
  | zero => simp [cyclesAfterAcks]
  | succ m ih =>
    have hlt : m % N < N := Nat.mod_lt _ (by omega)
    rw [cyclesAfterAcks, ih]
    unfold ackCycleStep
    rw [hcfg, u32OfI32_coe N hN, succ_mod_eq m N (by omega)]
    split_ifs <;> omega

/-- C3: a break is long iff `(cycles_completed + 1) >= cycles_before_long
as u32`, re-evaluated from the current state whenever the break duration
is computed; the `BreakComplete` acknowledgment increments the counter,
wrapping to 0 on reaching the threshold; consequently, for
`cycles_before_long = N ≥ 1` and a counter starting at 0, the break of
the 1-indexed cycle `k` is long exactly when `N` divides `k`. -/
theorem C3_pomodoro_cycle_law :
    (∀ a : App, a.is_long_break_next = true ↔
      a.pomodoro_cycles_completed + 1 ≥ u32OfI32 a.pomodoro_config.cycles_before_long) ∧
    (∀ a : App, a.get_current_break_duration
      = if a.is_long_break_next then a.pomodoro_config.long_break
        else a.pomodoro_config.short_break) ∧
    (∀ (env : Env) (a : App) (db : Db), a.pomodoro_state = .BreakComplete →
      (update env a db .AcknowledgePomodoro).app.pomodoro_cycles_completed
        = ackCycleStep a.pomodoro_config a.pomodoro_cycles_completed) ∧
    (∀ (cfg : PomodoroConfig) (N : Nat), cfg.cycles_before_long = (N : Int) →
      1 ≤ N → N ≤ 2147483647 →
      (∀ m, cyclesAfterAcks cfg m = m % N) ∧
      (∀ k, 1 ≤ k →
        ((pomApp cfg (cyclesAfterAcks cfg (k - 1))).is_long_break_next = true ↔
          N ∣ k))) := by
  refine ⟨?_, ?_, ?_, ?_⟩
  · intro a
    simp [App.is_long_break_next]
  · intro a
    rfl
  · intro env a db h
    rcases hp : a.pomodoro_last_project with _ | proj <;>
      rcases hd : a.pomodoro_last_description with _ | desc <;>
      simp [update, h, hp, hd, ackCycleStep]
  · intro cfg N hcfg h1 hN
    have hcast : u32OfI32 cfg.cycles_before_long = N := by
      rw [hcfg]
      exact u32OfI32_coe N hN
    refine ⟨cyclesAfterAcks_mod cfg N hcfg h1 hN, ?_⟩
    intro k hk
    obtain ⟨j, rfl⟩ : ∃ j, k = j + 1 := ⟨k - 1, by omega⟩
    have hlt : j % N < N := Nat.mod_lt _ (by omega)
    rw [Nat.add_sub_cancel, cyclesAfterAcks_mod cfg N hcfg h1 hN,
      Nat.dvd_iff_mod_eq_zero]
    simp only [App.is_long_break_next, pomApp, hcast, decide_eq_true_eq, ge_iff_le]
    rw [succ_mod_eq j N (by omega)]
    constructor
    · intro hge
      have heq : j % N + 1 = N := by omega
      rw [if_pos heq]
    · intro h0
      by_cases heq : j % N + 1 = N
      · omega
      · rw [if_neg heq] at h0
        omega

/-- C3 witness: with the default configuration (N = 4), the counter after
7 acknowledgments is 3, the break of cycle 4 is long (4 ∣ 4), and the
break of cycle 3 is short (¬ 4 ∣ 3). -/
theorem C3_pomodoro_cycle_law_witness :
    cyclesAfterAcks PomodoroConfig.default 7 = 7 % 4 ∧
    ((pomApp PomodoroConfig.default
        (cyclesAfterAcks PomodoroConfig.default (4 - 1))).is_long_break_next = true ↔
      4 ∣ 4) ∧
    ((pomApp PomodoroConfig.default
        (cyclesAfterAcks PomodoroConfig.default (3 - 1))).is_long_break_next = true ↔
      4 ∣ 3) :=
  ⟨(C3_pomodoro_cycle_law.2.2.2 PomodoroConfig.default 4 (by decide) (by decide)
      (by decide)).1 7,
   (C3_pomodoro_cycle_law.2.2.2 PomodoroConfig.default 4 (by decide) (by decide)
      (by decide)).2 4 (by decide),
   (C3_pomodoro_cycle_law.2.2.2 PomodoroConfig.default 4 (by decide) (by decide)
      (by decide)).2 3 (by decide)⟩

/-- Formatting an instant at minute precision in a minute-aligned zone
and parsing it back yields the minute truncation of the instant. -/
theorem utcOfLocal_format (off t : Int) (h : 60 ∣ off) :
    utcOfLocalMinutes off ((t + off) / 60) = 60 * (t / 60) := by
  obtain ⟨o, rfl⟩ := h
  unfold utcOfLocalMinutes
  rw [mul_comm 60 o, Int.add_mul_ediv_right _ _ (by norm_num : (60 : Int) ≠ 0)]
  ring

/-- C6 (corrected): loading an entry into the edit dialog and saving
without touching the buffers persists the start and end instants
truncated to whole minutes (the dialog format `%Y-%m-%d %H:%M` has
minute precision); the original instants are reproduced exactly iff they
are multiples of a minute.  The project and description round-trip
unchanged. -/
theorem C6_edit_roundtrip_truncates (env : Env) (a : App) (db : Db)
    (id : Int) (e : Entry)
    (hoff : 60 ∣ env.tzOff)
    (hfind : a.entries.find? (fun x => x.id = id) = some e) :
    (runSystem [(env, .EditEntry id), (env, .SaveEditEntry)] (a, db)).2.entries
      = db.entries.map (fun x =>
          if x.id = e.id then
            { e with
              start := 60 * (e.start / 60)
              end_ := e.end_.map fun t => 60 * (t / 60) }
          else x) ∧
    (60 ∣ e.start → 60 * (e.start / 60) = e.start) ∧
    (∀ t : Int, 60 ∣ t → 60 * (t / 60) = t) := by
  refine ⟨?_, fun h => Int.mul_ediv_cancel' h, fun t h => Int.mul_ediv_cancel' h⟩
  cases hend : e.end_ with
  | none =>
    simp only [runSystem, List.foldl, dispatch, update, hfind, hend, savedEntry,
      formatLocalHm, Db.update_entry]
    simp [utcOfLocal_format, hoff]
  | some t =>
    simp only [runSystem, List.foldl, dispatch, update, hfind, hend, savedEntry,
      formatLocalHm, Db.update_entry]
    simp [utcOfLocal_format, hoff]

/-- C6 witness: an entry lying on whole minutes (start 120 s, end
3600 s) round-trips through the edit dialog unchanged. -/
theorem C6_edit_roundtrip_truncates_witness :
    (runSystem [(env0, .EditEntry 1), (env0, .SaveEditEntry)]
        (appAligned, dbAligned)).2.entries
      = dbAligned.entries.map (fun x =>
          if x.id = alignedEntry.id then
            { alignedEntry with
              start := 60 * (alignedEntry.start / 60)
              end_ := alignedEntry.end_.map fun t => 60 * (t / 60) }
          else x) ∧
    (60 ∣ alignedEntry.start → 60 * (alignedEntry.start / 60) = alignedEntry.start) ∧
    (∀ t : Int, 60 ∣ t → 60 * (t / 60) = t) :=
  C6_edit_roundtrip_truncates env0 appAligned dbAligned 1 alignedEntry
    (by decide) (by decide)

/-- C6 counterexample: the claim as stated fails — an entry whose start
has a non-zero seconds component (90 s = 00:01:30) comes back from an
unmodified edit round-trip as 60 s (00:01:00), and its end 3630 s comes
back as 3600 s, because the dialog strings carry only minutes. -/
theorem C6_edit_roundtrip_counterexample :
    oddSecondsEntry.start = 90 ∧ oddSecondsEntry.end_ = some 3630 ∧
    (runSystem [(env0, .EditEntry 1), (env0, .SaveEditEntry)]
        (appOddSeconds, dbOddSeconds)).2.entries
      = [⟨1, "Acme".data, "Design".data, 60, some 3600, false⟩] := by
  decide

/-- C7 (corrected): on save, project and description are taken from the
buffers and persisted together with the re-parsed times; a start buffer
that fails to parse (or is empty) leaves the start unchanged, and a
non-empty end buffer that fails to parse leaves the end unchanged — but
an empty end buffer does not keep the previous value: it clears the end
timestamp.  The save is persisted for the edited row and a refresh is
chained regardless of parse failures. -/
theorem C7_save_parse_fallback (env : Env) (a : App) (db : Db) (e : Entry)
    (he : a.editing_entry = some e) :
    ((a.edit_start_input = .invalid ∨ a.edit_start_input = .empty) →
      (savedEntry env.tzOff a e).start = e.start) ∧
    (a.edit_end_input = .invalid → (savedEntry env.tzOff a e).end_ = e.end_) ∧
    (a.edit_end_input = .empty → (savedEntry env.tzOff a e).end_ = none) ∧
    (savedEntry env.tzOff a e).project = a.edit_project_input ∧
    (savedEntry env.tzOff a e).description = a.edit_description_input ∧
    (savedEntry env.tzOff a e).id = e.id ∧
    (savedEntry env.tzOff a e).billed = e.billed ∧
    (update env a db .SaveEditEntry).db.entries
      = db.entries.map (fun x =>
          if x.id = (savedEntry env.tzOff a e).id then savedEntry env.tzOff a e
          else x) ∧
    (update env a db .SaveEditEntry).next = some .RefreshEntries := by
  refine ⟨?_, ?_, ?_, rfl, rfl, rfl, rfl, ?_, ?_⟩
  · rintro (hs | hs) <;> simp [savedEntry, hs]
  · intro hs
    simp [savedEntry, hs]
  · intro hs
    simp [savedEntry, hs]
  · simp [update, he, Db.update_entry, savedEntry]
  · simp [update, he]

/-- C7 witness: unparseable start and end buffers both fall back to the
stored values while the rest of the save still goes through. -/
theorem C7_save_parse_fallback_witness :
    ((appInvalidBufs.edit_start_input = .invalid ∨
        appInvalidBufs.edit_start_input = .empty) →
      (savedEntry env0.tzOff appInvalidBufs endedEntry).start = endedEntry.start) ∧
    (appInvalidBufs.edit_end_input = .invalid →
      (savedEntry env0.tzOff appInvalidBufs endedEntry).end_ = endedEntry.end_) ∧
    (appInvalidBufs.edit_end_input = .empty →
      (savedEntry env0.tzOff appInvalidBufs endedEntry).end_ = none) ∧
    (savedEntry env0.tzOff appInvalidBufs endedEntry).project
      = appInvalidBufs.edit_project_input ∧
    (savedEntry env0.tzOff appInvalidBufs endedEntry).description
      = appInvalidBufs.edit_description_input ∧
    (savedEntry env0.tzOff appInvalidBufs endedEntry).id = endedEntry.id ∧
    (savedEntry env0.tzOff appInvalidBufs endedEntry).billed = endedEntry.billed ∧
    (update env0 appInvalidBufs dbEnded .SaveEditEntry).db.entries
      = dbEnded.entries.map (fun x =>
          if x.id = (savedEntry env0.tzOff appInvalidBufs endedEntry).id then
            savedEntry env0.tzOff appInvalidBufs endedEntry
          else x) ∧
    (update env0 appInvalidBufs dbEnded .SaveEditEntry).next
      = some .RefreshEntries :=
  C7_save_parse_fallback env0 appInvalidBufs dbEnded endedEntry rfl

/-- C7 counterexample: the claim as stated fails — the empty end string
does not parse as a `%Y-%m-%d %H:%M` time, yet saving does not retain
the previous end value (3600 s): it clears the end timestamp. -/
theorem C7_empty_end_clears_counterexample :
    appEmptyEndBuf.edit_end_input = .empty ∧
    endedEntry.end_ = some 3600 ∧
    (update env0 appEmptyEndBuf dbEnded .SaveEditEntry).db.entries
      = [⟨1, "Acme".data, "Design".data, 0, none, false⟩] ∧
    ¬ (update env0 appEmptyEndBuf dbEnded .SaveEditEntry).db.entries
        = dbEnded.entries := by
  decide

/-- Every single `update` step preserves the interval-start/state
coupling. -/
theorem update_pomIntervalOk (env : Env) (a : App) (db : Db) (msg : Message)
    (h : pomIntervalOk a) : pomIntervalOk (update env a db msg).app := by
  unfold pomIntervalOk at h ⊢
  cases msg <;>
    (simp only [update]) <;>
    (repeat' split) <;>
    simp_all [App.refresh_entries, App.refresh_active_timer,
      App.refresh_invoice_entries, App.load_pomodoro_inputs]

/-- A pumped dispatch (the message plus its chained follow-up) preserves
the interval-start/state coupling. -/
theorem dispatch_pomIntervalOk (env : Env) (a : App) (db : Db) (msg : Message)
    (h : pomIntervalOk a) : pomIntervalOk (dispatch env a db msg).1 := by
  simp only [dispatch]
  cases hx : (update env a db msg).next with
  | none =>
    simp only [hx]
    exact update_pomIntervalOk env a db msg h
  | some m2 =>
    simp only [hx]
    exact update_pomIntervalOk env _ _ m2 (update_pomIntervalOk env a db msg h)

/-- `App::new` establishes the interval-start/state coupling. -/
theorem appNew_pomIntervalOk (db : Db) : pomIntervalOk (appNew db) := by
  unfold pomIntervalOk appNew
  cases hae : db.get_active_entry <;>
    simp_all [App.refresh_entries, App.refresh_active_timer, defaultApp,
      Db.get_pomodoro_config] <;>
    split_ifs <;>
    simp_all

/-- C10: in every session state reachable from `App::new` by any
sequence of dispatched messages, `pomodoro_interval_start` is `Some` if
and only if the Pomodoro state is `Working` or `OnBreak` (the waiting
states `Idle`, `WorkComplete` and `BreakComplete` carry no interval
start). -/
theorem C10_interval_start_iff_running (db0 : Db) (steps : List (Env × Message)) :
    (runSystem steps (appNew db0, db0)).1.pomodoro_interval_start.isSome = true ↔
      ((runSystem steps (appNew db0, db0)).1.pomodoro_state = .Working ∨
        (runSystem steps (appNew db0, db0)).1.pomodoro_state = .OnBreak) := by
  have main : ∀ (l : List (Env × Message)) (s : App × Db), pomIntervalOk s.1 →
      pomIntervalOk (runSystem l s).1 := by
    intro l
    induction l with
    | nil => intro s hs; exact hs
    | cons st rest ih =>
      intro s hs
      rw [runSystem]
      exact ih _ (dispatch_pomIntervalOk st.1 s.1 s.2 st.2 hs)
  exact main steps (appNew db0, db0) (appNew_pomIntervalOk db0)

/-- Folding `pickLaterStart` from a `some` accumulator never yields
`none`. -/
theorem foldl_pickLaterStart_some (l : List Entry) (a : Entry) :
    ∃ b, l.foldl Db.pickLaterStart (some a) = some b := by
  induction l generalizing a with
  | nil => exact ⟨a, rfl⟩
  | cons e t ih =>
    rw [List.foldl_cons]
    unfold Db.pickLaterStart
    by_cases hgt : e.start > a.start
    · simpa [hgt] using ih e
    · simpa [hgt] using ih a

/-- `get_active_entry` is `none` exactly when the store holds no active
entry. -/
theorem get_active_entry_none_iff (db : Db) :
    db.get_active_entry = none ↔ db.activeCount = 0 := by
  unfold Db.get_active_entry Db.activeCount
  cases hf : db.entries.filter (fun e => e.end_ = none) with
  | nil => simp
  | cons e t =>
    obtain ⟨b, hb⟩ := foldl_pickLaterStart_some t e
    rw [List.foldl_cons]
    have hinit : Db.pickLaterStart none e = some e := rfl
    rw [hinit, hb]
    simp

/-- The entry returned by `get_active_entry` is one of the store's
active entries. -/
theorem get_active_entry_mem (db : Db) (e : Entry)
    (h : db.get_active_entry = some e) :
    e ∈ db.entries.filter (fun x => x.end_ = none) := by
  unfold Db.get_active_entry at h
  have aux : ∀ (l : List Entry) (acc : Option Entry) (b : Entry),
      l.foldl Db.pickLaterStart acc = some b → b ∈ l ∨ acc = some b := by
    intro l
    induction l with
    | nil =>
      intro acc b hacc
      exact Or.inr hacc
    | cons x t ih =>
      intro acc b hacc
      rw [List.foldl_cons] at hacc
      rcases ih (Db.pickLaterStart acc x) b hacc with hmem | hpick
      · exact Or.inl (List.mem_cons_of_mem _ hmem)
      · cases acc with
        | none =>
          simp only [Db.pickLaterStart] at hpick
          injection hpick with hxb
          exact Or.inl (hxb ▸ List.mem_cons_self _ _)
        | some a =>
          simp only [Db.pickLaterStart] at hpick
          by_cases hgt : x.start > a.start
          · rw [if_pos hgt] at hpick
            injection hpick with hxb
            exact Or.inl (hxb ▸ List.mem_cons_self _ _)
          · rw [if_neg hgt] at hpick
            exact Or.inr hpick
  rcases aux _ none e h with hmem | hacc
  · exact hmem
  · exact absurd hacc (by simp)

/-- Inserting a running entry increments the active count by one. -/
theorem insert_activeCount (db : Db) (e : Entry) (he : e.end_ = none) :
    (db.insert e).activeCount = db.activeCount + 1 := by
  unfold Db.insert Db.activeCount
  simp [List.filter_append, he]

/-- If the store holds at most one active entry, `stop_active_timer`
leaves it with none. -/
theorem stop_activeCount_zero (db : Db) (now : Int) (h : db.activeCount ≤ 1) :
    ((db.stop_active_timer now).1).activeCount = 0 := by
  cases hga : db.get_active_entry with
  | none =>
    have h0 := (get_active_entry_none_iff db).mp hga
    simpa [Db.stop_active_timer, hga] using h0
  | some e =>
    have hmem := get_active_entry_mem db e hga
    have hfe : db.entries.filter (fun x => x.end_ = none) = [e] := by
      have hlen : (db.entries.filter (fun x => x.end_ = none)).length ≤ 1 := h
      cases hf : db.entries.filter (fun x => x.end_ = none) with
      | nil =>
        rw [hf] at hmem
        simp at hmem
      | cons x xs =>
        rw [hf] at hmem hlen
        have hxs : xs = [] := by
          cases xs with
          | nil => rfl
          | cons y ys => simp at hlen
        subst hxs
        simp at hmem
        rw [hmem]
    unfold Db.stop_active_timer
    rw [hga]
    unfold Db.activeCount
    simp only []
    rw [List.length_eq_zero]
    rw [List.filter_eq_nil_iff]
    intro y hy
    obtain ⟨x, hx, rfl⟩ := List.mem_map.mp hy
    by_cases hid : x.id = e.id
    · simp [hid]
    · simp only [hid, if_false]
      intro hxe
      have hxmem : x ∈ db.entries.filter (fun z => z.end_ = none) :=
        List.mem_filter.mpr ⟨hx, by simp [hxe]⟩
      rw [hfe] at hxmem
      simp at hxmem
      exact hid (by rw [hxmem])

/-- `App::new` mirrors the store's active entry. -/
theorem appNew_active (db : Db) :
    (appNew db).active_entry = db.get_active_entry := by
  unfold appNew
  cases hae : db.get_active_entry <;>
    simp_all [App.refresh_entries, App.refresh_active_timer] <;>
    split_ifs <;>
    simp_all

/-- A pumped `StartTimer` dispatch preserves the timer invariant. -/
theorem dispatch_startTimer_inv (env : Env) (a : App) (db : Db)
    (h : storeTimerInv (a, db)) :
    storeTimerInv
      ((dispatch env a db .StartTimer).1, (dispatch env a db .StartTimer).2.1) := by
  by_cases hc : ¬ a.project_input = [] ∧ a.active_entry = none
  · have hcount : db.activeCount = 0 := h.2 hc.2
    have hone :
        ((db.start_timer env.now a.project_input a.description_input).1).activeCount
          = 1 := by
      simp only [Db.start_timer]
      rw [insert_activeCount db _ rfl, hcount]
    have hd1 : (dispatch env a db .StartTimer).2.1
        = (db.start_timer env.now a.project_input a.description_input).1 := by
      simp [dispatch, update, hc.1, hc.2]
    have hd2 : (dispatch env a db .StartTimer).1.active_entry
        = ((db.start_timer env.now a.project_input a.description_input).1).get_active_entry := by
      simp [dispatch, update, hc.1, hc.2, App.refresh_active_timer]
    refine ⟨?_, ?_⟩
    · rw [hd1, hone]
    · intro hnone
      rw [hd2] at hnone
      have h0 := (get_active_entry_none_iff _).mp hnone
      rw [hone] at h0
      exact absurd h0 (by norm_num)
  · have hstep : update env a db .StartTimer = ⟨a, db, [], none⟩ := by
      simp only [update, if_neg hc]
    simpa [dispatch, hstep] using h

/-- A pumped `StopTimer` dispatch preserves the timer invariant. -/
theorem dispatch_stopTimer_inv (env : Env) (a : App) (db : Db)
    (h : storeTimerInv (a, db)) :
    storeTimerInv
      ((dispatch env a db .StopTimer).1, (dispatch env a db .StopTimer).2.1) := by
  by_cases hc : a.active_entry.isSome = true
  · have hzero : ((db.stop_active_timer env.now).1).activeCount = 0 :=
      stop_activeCount_zero db env.now h.1
    have hd1 : (dispatch env a db .StopTimer).2.1 = (db.stop_active_timer env.now).1 := by
      simp [dispatch, update, hc]
    exact ⟨by rw [hd1, hzero]; omega, fun _ => by rw [hd1, hzero]⟩
  · have hc' : a.active_entry.isSome = false := by simpa using hc
    have hstep : update env a db .StopTimer = ⟨a, db, [], none⟩ := by
      simp only [update, hc', Bool.false_eq_true, if_false]
    simpa [dispatch, hstep] using h

/-- A pumped dispatch of any timer-scope message (start, stop, or a
project/description keystroke, which touches neither the store nor the
active-entry mirror) preserves the timer invariant. -/
theorem dispatch_timerScope_inv (env : Env) (a : App) (db : Db) (msg : Message)
    (hm : isTimerScope msg = true) (h : storeTimerInv (a, db)) :
    storeTimerInv ((dispatch env a db msg).1, (dispatch env a db msg).2.1) := by
  cases msg
  case StartTimer => exact dispatch_startTimer_inv env a db h
  case StopTimer => exact dispatch_stopTimer_inv env a db h
  case UpdateProjectInput c =>
    simpa [dispatch, update, storeTimerInv] using h
  case UpdateDescriptionInput c =>
    simpa [dispatch, update, storeTimerInv] using h
  case DeleteProjectChar =>
    simpa [dispatch, update, storeTimerInv] using h
  case DeleteDescriptionChar =>
    simpa [dispatch, update, storeTimerInv] using h
  all_goals exact absurd hm (by simp [isTimerScope])

/-- C1: for every sequence of `StartTimer`/`StopTimer` messages —
interleaved with the project/description keystrokes through which the
operator meets `StartTimer`'s non-empty-buffer precondition again after
a start clears the buffer — dispatched from any session state whose
knowledge of the active entry is sound (if no active entry is known,
none exists; `App::new` establishes exactly this, second conjunct)
against a store holding at most one active entry, the store holds at
most one entry with an absent end timestamp; since the sequence is
arbitrary, every intermediate state is bounded as well.  The handlers
themselves enforce the dispatch preconditions: `StartTimer` inserts only
with a non-empty project buffer and no known active entry, `StopTimer`
stops only with a known active entry. -/
theorem C1_at_most_one_active :
    (∀ (a0 : App) (db0 : Db) (steps : List (Env × Message)),
      db0.activeCount ≤ 1 →
      (a0.active_entry = none → db0.activeCount = 0) →
      (∀ st ∈ steps, isTimerScope st.2 = true) →
      (runSystem steps (a0, db0)).2.activeCount ≤ 1) ∧
    (∀ (db0 : Db) (steps : List (Env × Message)),
      db0.activeCount ≤ 1 →
      (∀ st ∈ steps, isTimerScope st.2 = true) →
      (runSystem steps (appNew db0, db0)).2.activeCount ≤ 1) := by
  have main : ∀ (l : List (Env × Message)) (s : App × Db),
      (∀ st ∈ l, isTimerScope st.2 = true) →
      storeTimerInv s → storeTimerInv (runSystem l s) := by
    intro l
    induction l with
    | nil =>
      intro s _ hs
      exact hs
    | cons st rest ih =>
      intro s hl hs
      rw [runSystem]
      exact ih _ (fun x hx => hl x (List.mem_cons_of_mem _ hx))
        (dispatch_timerScope_inv st.1 s.1 s.2 st.2 (hl st (List.mem_cons_self _ _)) hs)
  constructor
  · intro a0 db0 steps h0 hsync hT
    exact (main steps (a0, db0) hT ⟨h0, hsync⟩).1
  · intro db0 steps h0 hT
    refine (main steps (appNew db0, db0) hT ⟨h0, fun hnone => ?_⟩).1
    rw [appNew_active db0] at hnone
    exact (get_active_entry_none_iff db0).mp hnone

/-- C1 witness: from a session with "Acme" in the project buffer and an
empty store, start (precondition observed — the entry is genuinely
inserted), type a new project name, stop, and start again (second
genuine insertion): the run ends with two stored entries of which
exactly one is active, and the bound holds. -/
theorem C1_at_most_one_active_witness :
    (runSystem timerDemoSteps (appStartReady, emptyDb)).2.activeCount ≤ 1 ∧
    (runSystem timerDemoSteps (appStartReady, emptyDb)).2.activeCount = 1 ∧
    (runSystem timerDemoSteps (appStartReady, emptyDb)).2.entries.length = 2 :=
  ⟨C1_at_most_one_active.1 appStartReady emptyDb timerDemoSteps
      (by decide) (by decide) (by decide),
   by decide, by decide⟩

end Meter
